import Mathlib

/-!
# Verification of the balance-polling script (`src/bot.py`)

Shallow embedding of the single-file Python program `bot.py`: a loop that
issues one JSON-RPC `eth_getBalance` request every 10 seconds, converts the
hexadecimal wei `result` to a token amount, and prints one line per poll.

Modelling choices, recorded once here:

* The outcome of the network interaction (`requests.post` + `response.json()`
  + `.get('result')`) is an explicit input `HttpResult` to `get_balance`:
  either the POST raised (`transportError`), the body failed to parse as JSON
  (`jsonError`), or a parsed body whose optional `result` field is a
  `JsonValue` (`ok`; `none` models both a missing field and Python `None`
  returned by `.get`).
* The current local time (`time.strftime`) is an explicit input `t : Nat`,
  seconds since local midnight.
* Python's unbounded `int` is `Int`/`Nat`.  `int(s, 16)` is modelled by
  `pyIntHex?` including its full grammar: surrounding whitespace, an optional
  sign, an optional `0x`/`0X` base marker, and single underscores between
  digits.  A parse failure returns `none`; the raised `ValueError` message is
  `invalidLiteralMsg` (Python quotes the offending literal via `repr`; the
  quoting is elided here, the message stays non-empty either way).  The model
  is exact on ASCII strings; CPython also strips non-ASCII Unicode whitespace
  and accepts non-ASCII Unicode decimal digits, so failing-parse theorems
  carry an `asciiOnly` hypothesis.
* The float division `int(result, 16) / 10**18` raises `OverflowError` when
  the quotient is out of binary64 range; that happens exactly when
  |wei| ≥ `floatDivOverflowBound`, an integer condition modelled directly in
  `getBalanceBody`.  In range, the program carries the binary64 rounding of
  the quotient; the embedding keeps the exact wei (which the program also
  holds exactly at that point) and exposes the exact quotient over `ℚ` by
  `amountOf`.  `fmtBalance5 wei` renders wei/10^18 rounded to 5 fractional
  digits, half to even (the IEEE-754 default); it agrees with formatting the
  double except within half an ulp of a 5-digit decimal tie, and concrete
  claims evaluate it only at agreeing inputs.
* Each `print(...)` is modelled by the list of lines a call emits.
-/

set_option maxRecDepth 4096

namespace Bot

/-- `RPC_URL` constant of the source. -/
def RPC_URL : String := "https://polygon-rpc.com"

/-- `ADDRESS` constant of the source (verbatim, including the trailing `fU`). -/
def ADDRESS : String := "0x1efD4DB8b7bFe247C75323dAE62B95f24b1cBAAfU"

/-- JSON values that can sit in the `result` field of the parsed response
body.  Numbers are modelled as integers (the only numeric shape the claims
mention); objects behave like arrays for everything `get_balance` does with
the value (truthiness, non-string conversion error), so arrays stand in for
both. -/
inductive JsonValue where
  | jnull
  | jbool (b : Bool)
  | jnum (n : Int)
  | jstr (s : String)
  | jarr (elems : List JsonValue)

/-- Python truthiness of a JSON value, as tested by `if result:`. -/
def truthy : JsonValue → Bool
  | .jnull => false
  | .jbool b => b
  | .jnum n => n != 0
  | .jstr s => s != ""
  | .jarr l => !l.isEmpty

/-- Truthiness of `response.json().get('result')`: a missing field yields
Python `None`, which is falsy. -/
def resultTruthy : Option JsonValue → Bool
  | none => false
  | some v => truthy v

/-- Outcome of `requests.post(...)`, `response.json()` and `.get('result')`,
the three calls of the `try:` block that touch the outside world. -/
inductive HttpResult where
  | transportError (msg : String)
  | jsonError (msg : String)
  | ok (result : Option JsonValue)

/-! ## Python `int(s, 16)` -/

/-- The whitespace `int(s, 16)` strips from both ends (ASCII part). -/
def isPySpace (c : Char) : Bool :=
  c == ' ' || c == '\t' || c == '\n' || c == '\r' || c == '\x0b' || c == '\x0c'

/-- Value of one hexadecimal digit, if the character is one. -/
def hexDigitVal? (c : Char) : Option Nat :=
  if '0' ≤ c ∧ c ≤ '9' then some (c.toNat - '0'.toNat)
  else if 'a' ≤ c ∧ c ≤ 'f' then some (c.toNat - 'a'.toNat + 10)
  else if 'A' ≤ c ∧ c ≤ 'F' then some (c.toNat - 'A'.toNat + 10)
  else none

/-- Digits after the first one: hexadecimal digits, where a single `_` may
separate two digits (Python's numeric-literal underscore rule). -/
def digitsCore (acc : Nat) : List Char → Option Nat
  | [] => some acc
  | c :: rest =>
    if c = '_' then
      match rest with
      | [] => none
      | c2 :: rest2 =>
        match hexDigitVal? c2 with
        | some d => digitsCore (16 * acc + d) rest2
        | none => none
    else
      match hexDigitVal? c with
      | some d => digitsCore (16 * acc + d) rest
      | none => none

/-- A non-empty digit sequence: first character must be a digit. -/
def parseDigits : List Char → Option Nat
  | [] => none
  | c :: rest =>
    match hexDigitVal? c with
    | some d => digitsCore d rest
    | none => none

/-- After a `0x`/`0X` marker one extra underscore is allowed before the
digits (`int("0x_1", 16)` succeeds). -/
def parseAfterBaseMark : List Char → Option Nat
  | [] => none
  | c :: rest => if c = '_' then parseDigits rest else parseDigits (c :: rest)

/-- Unsigned part: optional `0x`/`0X` marker, then digits. -/
def parseUnsigned : List Char → Option Nat
  | '0' :: 'x' :: rest => parseAfterBaseMark rest
  | '0' :: 'X' :: rest => parseAfterBaseMark rest
  | l => parseDigits l

/-- Optional single leading sign. -/
def parseSigned : List Char → Option Int
  | [] => none
  | c :: rest =>
    if c = '+' then (parseUnsigned rest).map (fun n => (n : Int))
    else if c = '-' then (parseUnsigned rest).map (fun n => -(n : Int))
    else (parseUnsigned (c :: rest)).map (fun n => (n : Int))

/-- Strip leading and trailing whitespace. -/
def pyStrip (cs : List Char) : List Char :=
  ((cs.dropWhile isPySpace).reverse.dropWhile isPySpace).reverse

/-- Model of Python `int(s, 16)`: `none` when it raises `ValueError`.  Exact
on ASCII strings; CPython additionally strips non-ASCII Unicode whitespace
and accepts non-ASCII Unicode decimal digits, so theorems about *failing*
parses are stated for ASCII inputs (`asciiOnly`). -/
def pyIntHex? (s : String) : Option Int :=
  parseSigned (pyStrip s.data)

/-- ASCII-only strings: the fragment on which `pyIntHex?` agrees exactly
with CPython `int(s, 16)`. -/
def asciiOnly (s : String) : Bool :=
  s.data.all (fun c => c.toNat < 128)

/-- Message of the `ValueError` raised by `int(s, 16)` on a bad literal
(Python quotes `s` via `repr`; quoting elided). -/
def invalidLiteralMsg (s : String) : String :=
  "invalid literal for int() with base 16: " ++ s

/-- Message of the `TypeError` raised by `int(x, 16)` on a non-string. -/
def nonStringTypeMsg : String := "int() can't convert non-string with explicit base"

/-- `int(result, 16)` on the bound `result` value: only strings can be
converted when an explicit base is given; `None` and every non-string raise
`TypeError`, a bad string literal raises `ValueError`. -/
def pyInt16 : Option JsonValue → Except String Int
  | some (.jstr s) =>
    match pyIntHex? s with
    | some n => .ok n
    | none => .error (invalidLiteralMsg s)
  | _ => .error nonStringTypeMsg

/-! ## Output formatting -/

/-- Two zero-padded decimal digits, as `strftime` produces for `%H`, `%M`,
`%S`. -/
def pad2 (n : Nat) : String :=
  ⟨[Nat.digitChar (n / 10), Nat.digitChar (n % 10)]⟩

/-- `time.strftime('%H:%M:%S')` at `t` seconds after local midnight. -/
def hmsString (t : Nat) : String :=
  pad2 (t / 3600 % 24) ++ ":" ++ pad2 (t / 60 % 60) ++ ":" ++ pad2 (t % 60)

/-- Decimal digit string of a natural number (fuel-based so that it reduces
in the kernel). -/
def natDigitsAux : Nat → Nat → List Char
  | 0, _ => []
  | fuel + 1, n =>
    if n < 10 then [Nat.digitChar n]
    else natDigitsAux fuel (n / 10) ++ [Nat.digitChar (n % 10)]

/-- Decimal rendering of a natural number. -/
def natToStr (n : Nat) : String := ⟨natDigitsAux (n + 1) n⟩

/-- |wei| rounded to units of 10^-5 tokens (round half to even): the exact
value of rounding |wei|/10^18 to 5 fractional digits. -/
def round5 (a : Nat) : Nat :=
  let q := a / 10 ^ 13
  let r := a % 10 ^ 13
  if r < 5 * 10 ^ 12 then q
  else if 5 * 10 ^ 12 < r then q + 1
  else if q % 2 = 0 then q else q + 1

/-- Five zero-padded decimal digits (from the five low decimal places). -/
def pad5 (m : Nat) : String :=
  ⟨[Nat.digitChar (m / 10000 % 10), Nat.digitChar (m / 1000 % 10),
    Nat.digitChar (m / 100 % 10), Nat.digitChar (m / 10 % 10),
    Nat.digitChar (m % 10)]⟩

/-- `f"{wei / 10**18:.5f}"`: the balance rendered with exactly five
fractional digits. -/
def fmtBalance5 (wei : Int) : String :=
  (if wei < 0 then "-" else "")
    ++ natToStr (round5 wei.natAbs / 100000) ++ "." ++ pad5 (round5 wei.natAbs % 100000)

/-- The line of the success branch:
`print(f"✅ [{time.strftime('%H:%M:%S')}] Saldo: {balance:.5f} ETH/MATIC")`. -/
def successLine (t : Nat) (wei : Int) : String :=
  "✅ [" ++ hmsString t ++ "] Saldo: " ++ fmtBalance5 wei ++ " ETH/MATIC"

/-- The line of the falsy-`result` branch. -/
def emptyLine : String := "❌ RPC merespon tapi data kosong."

/-- The line of the `except` branch: `print(f"📡 Koneksi Gagal: {e}")`. -/
def failLine (e : String) : String := "📡 Koneksi Gagal: " ++ e

/-! ## `get_balance` -/

/-- The per-poll reading: either a balance with its timestamp, or one of the
two reported failure shapes. -/
inductive Outcome where
  | success (timestamp : String) (wei : Int)
  | emptyResponse
  | connectionFailed (errMsg : String)
  deriving DecidableEq

/-- Message of the `OverflowError` raised by `int / int` true division when
the quotient is out of binary64 range. -/
def overflowMsg : String := "integer division result too large for a float"

/-- Smallest |wei| for which the float division `wei / 10**18` raises
`OverflowError`: the correctly-rounded (round half to even) quotient is
infinite exactly when the exact quotient is at least `2^1024 - 2^970`, the
midpoint above the largest finite double (the midpoint itself ties to the
even mantissa `2^1024`, i.e. away).  Equivalently, |wei| is at least
`(2^1024 - 2^970) * 10^18` — an exact integer condition. -/
def floatDivOverflowBound : Nat := (2 ^ 1024 - 2 ^ 970) * 10 ^ 18

/-- Body of the `try:` block of `get_balance`.  Returns the outcome together
with the lines it prints, or the message of the exception it raises: a
`ValueError`/`TypeError` from `int(result, 16)`, or the `OverflowError` from
the float division `int(result, 16) / 10**18` when the quotient exceeds
binary64 range. -/
def getBalanceBody (t : Nat) (resp : HttpResult) : Except String (Outcome × List String) :=
  match resp with
  | .transportError m => .error m
  | .jsonError m => .error m
  | .ok r =>
    if resultTruthy r then
      match pyInt16 r with
      | .ok wei =>
        if wei.natAbs < floatDivOverflowBound then
          .ok (.success (hmsString t) wei, [successLine t wei])
        else
          .error overflowMsg
      | .error e => .error e
    else
      .ok (.emptyResponse, [emptyLine])

/-- `get_balance`: the `try:` body wrapped in
`except Exception as e: print(f"📡 Koneksi Gagal: {e}")`. -/
def get_balance (t : Nat) (resp : HttpResult) : Outcome × List String :=
  match getBalanceBody t resp with
  | .ok res => res
  | .error e => (.connectionFailed e, [failLine e])

/-- Exact (pre-float-rounding) amount of a reading, in whole tokens:
wei / 10^18 over `ℚ`.  The program's `balance` variable holds the binary64
rounding of this value; sign and zero/non-zero are preserved by that
rounding. -/
def amountOf : Outcome → Option ℚ
  | .success _ wei => some ((wei : ℚ) / 10 ^ 18)
  | _ => none

/-- The 5-fractional-digit amount of a reading as displayed.  (Exact decimal
rounding of wei / 10^18; the program formats the binary64 rounding of the
quotient, which agrees except within half an ulp of a 5-digit decimal tie —
the concrete values the claims evaluate are on the agreeing side.) -/
def amount5Of : Outcome → Option String
  | .success _ wei => some (fmtBalance5 wei)
  | _ => none

/-- Spec-level `parseHexToInt` on a digit string: positional value of a
sequence of hexadecimal digits. -/
def specHexVal (ds : List Char) : Nat :=
  ds.foldl (fun a c => 16 * a + (hexDigitVal? c).getD 0) 0

/-! ## The main loop -/

/-- The `while True:` guard. -/
def whileTrueGuard : Bool := true

/-- One trip around the loop: run the body (`get_balance(); time.sleep(10)`,
which contains no `break`/`return`) and come back to the guard; `none` would
mean the loop was exited. -/
def loopStep (iters : Nat) : Option Nat :=
  if whileTrueGuard then some (iters + 1) else none

/-- State after `n` trips around the loop, `none` once the loop has exited. -/
def runFor : Nat → Option Nat
  | 0 => some 0
  | n + 1 => (runFor n).bind loopStep

/-- Start instant of poll `n` when poll `k` takes `d k` seconds: the loop
body is `get_balance()` (duration `d k`) followed by `time.sleep(10)`. -/
def pollStart (d : Nat → Nat) : Nat → Nat
  | 0 => 0
  | n + 1 => pollStart d n + d n + 10

/-- Instant at which poll `n` finishes. -/
def pollEnd (d : Nat → Nat) (n : Nat) : Nat := pollStart d n + d n

/-! ## Scanning a line for an `HH:MM:SS` timestamp -/

/-- ASCII decimal digit test. -/
def isDigitCh (c : Char) : Bool := '0' ≤ c && c ≤ '9'

/-- Does the list start with `DD:DD:DD` (two digits, colon, two digits,
colon, two digits)? -/
def isHMSAt : List Char → Bool
  | d1 :: d2 :: c1 :: d3 :: d4 :: c2 :: d5 :: d6 :: _ =>
    isDigitCh d1 && isDigitCh d2 && c1 == ':' && isDigitCh d3 && isDigitCh d4
      && c2 == ':' && isDigitCh d5 && isDigitCh d6
  | _ => false

/-- Does some position of the list start an `HH:MM:SS`-shaped timestamp? -/
def containsHMS : List Char → Bool
  | [] => false
  | c :: rest => isHMSAt (c :: rest) || containsHMS rest

/-- The error-message inputs of an `HttpResult` are non-empty (trivially so
when no exception is involved). -/
def errMsgNonempty : HttpResult → Prop
  | .transportError m => m ≠ ""
  | .jsonError m => m ≠ ""
  | .ok _ => True

end Bot

namespace Bot

/-! ## Helper lemmas -/

lemma append_ne_empty_left (a b : String) (ha : a ≠ "") : a ++ b ≠ "" := by
  intro h
  apply ha
  have hd := congrArg String.data h
  rw [String.data_append] at hd
  exact String.ext (List.append_eq_nil.mp hd).1

lemma hex_ne_underscore {c : Char} (h : (hexDigitVal? c).isSome = true) : c ≠ '_' := by
  intro hc
  rw [hc] at h
  exact absurd h (by decide)

lemma not_space_of_hex {c : Char} (h : (hexDigitVal? c).isSome = true) :
    isPySpace c = false := by
  have h1 : c ≠ ' ' := by intro hc; rw [hc] at h; exact absurd h (by decide)
  have h2 : c ≠ '\t' := by intro hc; rw [hc] at h; exact absurd h (by decide)
  have h3 : c ≠ '\n' := by intro hc; rw [hc] at h; exact absurd h (by decide)
  have h4 : c ≠ '\r' := by intro hc; rw [hc] at h; exact absurd h (by decide)
  have h5 : c ≠ '\x0b' := by intro hc; rw [hc] at h; exact absurd h (by decide)
  have h6 : c ≠ '\x0c' := by intro hc; rw [hc] at h; exact absurd h (by decide)
  simp [isPySpace, h1, h2, h3, h4, h5, h6]

lemma dropWhile_eq_self (p : Char → Bool) (l : List Char)
    (h : ∀ c ∈ l, p c = false) : l.dropWhile p = l := by
  cases l with
  | nil => rfl
  | cons a t =>
    rw [List.dropWhile_cons, h a (List.mem_cons_self a t)]
    simp

lemma pyStrip_eq_self (l : List Char) (h : ∀ c ∈ l, isPySpace c = false) :
    pyStrip l = l := by
  unfold pyStrip
  rw [dropWhile_eq_self _ _ h, dropWhile_eq_self, List.reverse_reverse]
  intro c hc
  exact h c (List.mem_reverse.mp hc)

lemma digitsCore_eq_foldl (l : List Char) (acc : Nat)
    (h : ∀ c ∈ l, (hexDigitVal? c).isSome = true) :
    digitsCore acc l
      = some (l.foldl (fun a c => 16 * a + (hexDigitVal? c).getD 0) acc) := by
  induction l generalizing acc with
  | nil => rfl
  | cons c rest ih =>
    have hc := h c (List.mem_cons_self c rest)
    obtain ⟨d, hd⟩ := Option.isSome_iff_exists.mp hc
    rw [digitsCore.eq_def]
    dsimp only
    rw [if_neg (hex_ne_underscore hc), hd]
    simp only [List.foldl_cons, hd, Option.getD_some]
    exact ih (16 * acc + d) (fun c' hc' => h c' (List.mem_cons_of_mem _ hc'))

lemma pyIntHex?_hexstr (ds : List Char) (hne : ds ≠ [])
    (h : ∀ c ∈ ds, (hexDigitVal? c).isSome = true) :
    pyIntHex? ⟨'0' :: 'x' :: ds⟩ = some (specHexVal ds : Int) := by
  have hnospace : ∀ c ∈ '0' :: 'x' :: ds, isPySpace c = false := by
    intro c hc
    rcases List.mem_cons.mp hc with h0 | hc
    · rw [h0]; decide
    rcases List.mem_cons.mp hc with h0 | hc
    · rw [h0]; decide
    · exact not_space_of_hex (h c hc)
  unfold pyIntHex?
  rw [show (String.mk ('0' :: 'x' :: ds)).data = '0' :: 'x' :: ds from rfl]
  rw [pyStrip_eq_self _ hnospace]
  rw [show parseSigned ('0' :: 'x' :: ds)
      = (parseUnsigned ('0' :: 'x' :: ds)).map (fun n => (n : Int)) from by
    simp only [parseSigned, if_neg (by decide : ¬('0' = '+')),
      if_neg (by decide : ¬('0' = '-'))]]
  rw [show parseUnsigned ('0' :: 'x' :: ds) = parseAfterBaseMark ds from rfl]
  obtain ⟨d, rest, rfl⟩ := List.exists_cons_of_ne_nil hne
  have hd := h d (List.mem_cons_self d rest)
  obtain ⟨v, hv⟩ := Option.isSome_iff_exists.mp hd
  simp only [parseAfterBaseMark, if_neg (hex_ne_underscore hd), parseDigits, hv]
  rw [digitsCore_eq_foldl rest v (fun c hc => h c (List.mem_cons_of_mem _ hc))]
  simp only [Option.map_some', specHexVal, List.foldl_cons, hv, Option.getD_some,
    Nat.mul_zero, Nat.zero_add]
  rfl

lemma get_balance_str (t : Nat) (s : String) (n : Int)
    (hne : s ≠ "") (hp : pyIntHex? s = some n)
    (hlt : n.natAbs < floatDivOverflowBound) :
    get_balance t (.ok (some (.jstr s)))
      = (.success (hmsString t) n, [successLine t n]) := by
  have ht : resultTruthy (some (.jstr s)) = true := by
    simp [resultTruthy, truthy, hne]
  simp [get_balance, getBalanceBody, ht, pyInt16, hp, hlt]

lemma get_balance_str_overflow (t : Nat) (s : String) (n : Int)
    (hne : s ≠ "") (hp : pyIntHex? s = some n)
    (hge : floatDivOverflowBound ≤ n.natAbs) :
    get_balance t (.ok (some (.jstr s)))
      = (.connectionFailed overflowMsg, [failLine overflowMsg]) := by
  have ht : resultTruthy (some (.jstr s)) = true := by
    simp [resultTruthy, truthy, hne]
  have hnlt : ¬ n.natAbs < floatDivOverflowBound := by omega
  simp [get_balance, getBalanceBody, ht, pyInt16, hp, hnlt]

lemma pyInt16_msg_ne : ∀ (r : Option JsonValue) (e : String),
    pyInt16 r = .error e → e ≠ ""
  | none, e, h => by injection h with h'; rw [← h']; decide
  | some .jnull, e, h => by injection h with h'; rw [← h']; decide
  | some (.jbool b), e, h => by injection h with h'; rw [← h']; decide
  | some (.jnum n), e, h => by injection h with h'; rw [← h']; decide
  | some (.jarr l), e, h => by injection h with h'; rw [← h']; decide
  | some (.jstr s), e, h => by
    simp only [pyInt16] at h
    cases hp : pyIntHex? s with
    | some n => rw [hp] at h; exact absurd h (by simp)
    | none =>
      rw [hp] at h
      injection h with h'
      rw [← h']
      exact append_ne_empty_left _ _ (by decide)

lemma runFor_eq (n : Nat) : runFor n = some n := by
  induction n with
  | zero => rfl
  | succ n ih => simp [runFor, ih, loopStep, whileTrueGuard]

end Bot

namespace Bot

/-! ## Claim theorems -/

/-- **C1 (counterexample).** The claim "for *every* valid hexadecimal result
string R the displayed amount is parseHexToInt(R) / 10^18" fails on the code:
for the valid hexadecimal result string `"0x"` followed by 280 `f` digits,
the float division `int(R, 16) / 10**18` raises `OverflowError` (the
quotient exceeds binary64 range), the generic `except` catches it, and the
program prints the "Koneksi Gagal" line — there is no success reading and no
displayed amount at all. -/
theorem c1_counterexample :
    (∀ c ∈ List.replicate 280 'f', (hexDigitVal? c).isSome = true) ∧
    get_balance 0 (.ok (some (.jstr ⟨'0' :: 'x' :: List.replicate 280 'f'⟩)))
      = (.connectionFailed overflowMsg, [failLine overflowMsg]) ∧
    amountOf (get_balance 0 (.ok (some (.jstr ⟨'0' :: 'x' :: List.replicate 280 'f'⟩)))).1
      = none :=
  ⟨by decide, by decide, by decide⟩

/-- **C1 (amended).** For every valid hexadecimal result string
`R = "0x" ++ ds` whose value is below the float-overflow bound
`(2^1024 - 2^970) * 10^18` wei, `get_balance` reaches the success branch and
the reading records *exactly* wei `= parseHexToInt(R) = specHexVal ds` (the
program holds this integer exactly; only the subsequent display divides it
by 10^18 in binary64 and formats to 5 fractional digits).  At or beyond the
bound, the `OverflowError` of the float division is caught and reported as
connection failed. -/
theorem c1_amended_wei_exact_below_overflow (t : Nat) (ds : List Char) (hne : ds ≠ [])
    (hhex : ∀ c ∈ ds, (hexDigitVal? c).isSome = true) :
    (specHexVal ds < floatDivOverflowBound →
      get_balance t (.ok (some (.jstr ⟨'0' :: 'x' :: ds⟩)))
        = (.success (hmsString t) (specHexVal ds), [successLine t (specHexVal ds)])) ∧
    (floatDivOverflowBound ≤ specHexVal ds →
      get_balance t (.ok (some (.jstr ⟨'0' :: 'x' :: ds⟩)))
        = (.connectionFailed overflowMsg, [failLine overflowMsg])) := by
  have hs : (⟨'0' :: 'x' :: ds⟩ : String) ≠ "" := by
    intro h
    exact List.cons_ne_nil _ _ (congrArg String.data h)
  have hp := pyIntHex?_hexstr ds hne hhex
  constructor
  · intro hlt
    exact get_balance_str t _ (specHexVal ds) hs hp (by simpa using hlt)
  · intro hge
    exact get_balance_str_overflow t _ (specHexVal ds) hs hp (by simpa using hge)

/-- Witness for the amended C1: the concrete result string `"0x1"`, whose
value 1 is below the overflow bound. -/
theorem c1_amended_wei_exact_below_overflow_witness :
    ((['1'] : List Char) ≠ [] ∧ ∀ c ∈ (['1'] : List Char), (hexDigitVal? c).isSome = true) ∧
    specHexVal ['1'] < floatDivOverflowBound ∧
    get_balance 0 (.ok (some (.jstr ⟨['0', 'x', '1']⟩)))
      = (.success (hmsString 0) (specHexVal ['1']), [successLine 0 (specHexVal ['1'])]) :=
  ⟨⟨by decide, by decide⟩, by decide,
    (c1_amended_wei_exact_below_overflow 0 ['1'] (by decide) (by decide)).1 (by decide)⟩

/-- **C3.** A successful HTTP response whose body has `result: null` or no
`result` field at all yields the "empty response" reading with its single
fixed line; the `try:` body itself already returns normally (nothing is
raised). -/
theorem c3_null_or_missing_is_empty (t : Nat) :
    get_balance t (.ok (some .jnull)) = (.emptyResponse, [emptyLine]) ∧
    get_balance t (.ok none) = (.emptyResponse, [emptyLine]) ∧
    getBalanceBody t (.ok (some .jnull)) = .ok (.emptyResponse, [emptyLine]) ∧
    getBalanceBody t (.ok none) = .ok (.emptyResponse, [emptyLine]) :=
  ⟨rfl, rfl, rfl, rfl⟩

/-- **C5 (counterexample).** The claim "whenever a reading carries an amount
it is non-negative" fails on the code: Python's `int(s, 16)` accepts a
leading minus sign, so the present result string `"-0x1"` reaches the
success branch with wei `-1` and the negative amount `-1/10^18`. -/
theorem c5_counterexample :
    (get_balance 0 (.ok (some (.jstr "-0x1")))).1 = .success (hmsString 0) (-1) ∧
    amountOf (get_balance 0 (.ok (some (.jstr "-0x1")))).1 = some ((-1 : ℚ) / 10 ^ 18) ∧
    ((-1 : ℚ) / 10 ^ 18) < 0 := by
  have h1 : (get_balance 0 (.ok (some (.jstr "-0x1")))).1 = .success (hmsString 0) (-1) := by
    decide
  refine ⟨h1, ?_, by norm_num⟩
  rw [h1]
  simp [amountOf]

/-- **C5 (amended).** Whenever the result string parses to a *non-negative*
integer whose magnitude is below the float-overflow bound (in particular for
every unsigned `0x`-prefixed hexadecimal string in that range), the success
branch is reached and the amount the reading carries is non-negative. -/
theorem c5_amended_nonneg (t : Nat) (s : String) (n : Int)
    (hp : pyIntHex? s = some n) (hn : 0 ≤ n)
    (hlt : n.natAbs < floatDivOverflowBound) :
    ∃ q : ℚ, amountOf (get_balance t (.ok (some (.jstr s)))).1 = some q ∧ 0 ≤ q := by
  have hne : s ≠ "" := by
    intro h
    rw [h] at hp
    exact Option.noConfusion (show (none : Option Int) = some n from hp)
  rw [get_balance_str t s n hne hp hlt]
  refine ⟨(n : ℚ) / 10 ^ 18, rfl, ?_⟩
  apply div_nonneg
  · exact_mod_cast hn
  · positivity

/-- Witness for the amended C5: the concrete result string `"0x1"`. -/
theorem c5_amended_nonneg_witness :
    pyIntHex? "0x1" = some 1 ∧ (0 : Int) ≤ 1 ∧
    (1 : Int).natAbs < floatDivOverflowBound ∧
    ∃ q : ℚ, amountOf (get_balance 0 (.ok (some (.jstr "0x1")))).1 = some q ∧ 0 ≤ q :=
  ⟨by decide, by decide, by decide,
    c5_amended_nonneg 0 "0x1" 1 (by decide) (by decide) (by decide)⟩

/-- **C7.** Result `"0xde0b6b3a7640000"` (10^18 wei) displays as exactly
`"1.00000"` (amount exactly 1), and result `"0x1"` (amount exactly
`1/10^18`) displays as `"0.00000"` after rounding to 5 fractional digits. -/
theorem c7_concrete_formatting (t : Nat) :
    amount5Of (get_balance t (.ok (some (.jstr "0xde0b6b3a7640000")))).1 = some "1.00000" ∧
    amountOf (get_balance t (.ok (some (.jstr "0xde0b6b3a7640000")))).1 = some 1 ∧
    amount5Of (get_balance t (.ok (some (.jstr "0x1")))).1 = some "0.00000" ∧
    amountOf (get_balance t (.ok (some (.jstr "0x1")))).1 = some (1 / 10 ^ 18) := by
  have h1 : (get_balance t (.ok (some (.jstr "0xde0b6b3a7640000")))).1
      = .success (hmsString t) 1000000000000000000 := rfl
  have h2 : (get_balance t (.ok (some (.jstr "0x1")))).1 = .success (hmsString t) 1 := rfl
  refine ⟨rfl, ?_, rfl, ?_⟩
  · rw [h1]
    simp [amountOf]
    norm_num
  · rw [h2]
    simp [amountOf]

/-- **C10.** Classification is by Python truthiness of the `result` value: a
successful response with the non-empty string `"0x0"` is a success with
amount 0 displayed as `0.00000`, while an HTTP-successful response whose
`result` is the empty string, JSON `null`, `false`, or the number `0` is
reported as "empty response". -/
theorem c10_truthiness_classification (t : Nat) :
    (get_balance t (.ok (some (.jstr "0x0")))).1 = .success (hmsString t) 0 ∧
    amount5Of (get_balance t (.ok (some (.jstr "0x0")))).1 = some "0.00000" ∧
    get_balance t (.ok (some (.jstr ""))) = (.emptyResponse, [emptyLine]) ∧
    get_balance t (.ok (some .jnull)) = (.emptyResponse, [emptyLine]) ∧
    get_balance t (.ok (some (.jbool false))) = (.emptyResponse, [emptyLine]) ∧
    get_balance t (.ok (some (.jnum 0))) = (.emptyResponse, [emptyLine]) :=
  ⟨rfl, rfl, rfl, rfl, rfl, rfl⟩

end Bot

namespace Bot

/-- **C2.** Whatever exception the `try:` body raises — transport/timeout
failure of the POST, a body that is not JSON, a hex-conversion failure, or
the overflow of the float division — `get_balance` catches it, reports the
"Koneksi Gagal" (connection failed) outcome carrying the error's
description, and returns normally; the description is non-empty whenever the
underlying exception messages are, and the printed line is never empty. -/
theorem c2_exceptions_caught (t : Nat) (resp : HttpResult) (e : String)
    (h : getBalanceBody t resp = .error e) :
    get_balance t resp = (.connectionFailed e, [failLine e]) ∧
    (errMsgNonempty resp → e ≠ "") ∧
    failLine e ≠ "" := by
  refine ⟨?_, ?_, append_ne_empty_left _ _ (by decide)⟩
  · unfold get_balance
    rw [h]
  · intro hne
    cases resp with
    | transportError m =>
      simp only [getBalanceBody] at h
      injection h with h'
      rw [← h']
      exact hne
    | jsonError m =>
      simp only [getBalanceBody] at h
      injection h with h'
      rw [← h']
      exact hne
    | ok r =>
      simp only [getBalanceBody] at h
      by_cases hT : resultTruthy r = true
      · rw [hT] at h
        simp only [if_true] at h
        cases hpi : pyInt16 r with
        | ok w =>
          rw [hpi] at h
          by_cases hov : w.natAbs < floatDivOverflowBound
          · simp only [hov, if_true] at h
            exact absurd h (by simp)
          · simp only [hov, if_false, Except.error.injEq] at h
            rw [← h]
            decide
        | error e' =>
          rw [hpi] at h
          simp only [Except.error.injEq] at h
          rw [← h]
          exact pyInt16_msg_ne r e' hpi
      · have hF : resultTruthy r = false := by
          revert hT
          cases resultTruthy r <;> simp
        rw [hF] at h
        simp at h

/-- Witness for C2: a concrete connection-refused message. -/
theorem c2_exceptions_caught_witness :
    getBalanceBody 0 (.transportError "Connection refused") = .error "Connection refused" ∧
    get_balance 0 (.transportError "Connection refused")
      = (.connectionFailed "Connection refused", [failLine "Connection refused"]) :=
  ⟨rfl, (c2_exceptions_caught 0 (.transportError "Connection refused") "Connection refused" rfl).1⟩

/-- **C6 (counterexample).** The claim "a hex-conversion failure is reported
in the same class as a malformed/empty RPC result" fails on the code: the
present, truthy, non-hexadecimal result string `"zz"` makes `int(result, 16)`
raise, the generic `except` catches it, and the report is the
connection-failed ("Koneksi Gagal") line — the transport-failure class — not
the empty-data line. -/
theorem c6_counterexample :
    (get_balance 0 (.ok (some (.jstr "zz")))).1
      = .connectionFailed (invalidLiteralMsg "zz") ∧
    (get_balance 0 (.ok (some (.jstr "zz")))).1 ≠ .emptyResponse ∧
    (get_balance 0 (.ok (some (.jstr "zz")))).2 = [failLine (invalidLiteralMsg "zz")] ∧
    failLine (invalidLiteralMsg "zz") ≠ emptyLine := by
  exact ⟨by decide, by decide, by decide, by decide⟩

/-- **C6 (amended).** On ASCII result strings — the fragment on which the
embedded `int(s, 16)` agrees exactly with CPython — a hex-to-decimal
conversion failure on a present, truthy result string is classified with the
transport failures: it yields the connection-failed outcome carrying the
(non-empty) `ValueError` description and the "Koneksi Gagal" line, an
outcome distinct from the empty-response class. -/
theorem c6_amended_conversion_failure_class (t : Nat) (s : String)
    (ha : asciiOnly s = true)
    (hT : truthy (.jstr s) = true) (hp : pyIntHex? s = none) :
    get_balance t (.ok (some (.jstr s)))
      = (.connectionFailed (invalidLiteralMsg s), [failLine (invalidLiteralMsg s)]) ∧
    invalidLiteralMsg s ≠ "" ∧
    (Outcome.connectionFailed (invalidLiteralMsg s)) ≠ .emptyResponse := by
  refine ⟨?_, append_ne_empty_left _ _ (by decide), by simp⟩
  have ht : resultTruthy (some (.jstr s)) = true := hT
  simp [get_balance, getBalanceBody, ht, pyInt16, hp]

/-- Witness for the amended C6: the concrete ASCII result string `"zz"`. -/
theorem c6_amended_conversion_failure_class_witness :
    asciiOnly "zz" = true ∧ truthy (.jstr "zz") = true ∧ pyIntHex? "zz" = none ∧
    get_balance 0 (.ok (some (.jstr "zz")))
      = (.connectionFailed (invalidLiteralMsg "zz"), [failLine (invalidLiteralMsg "zz")]) :=
  ⟨by decide, by decide, by decide,
    (c6_amended_conversion_failure_class 0 "zz" (by decide) (by decide) (by decide)).1⟩

/-- **C8.** The main loop never terminates on its own: after any `n`
completed iterations the `while True:` guard still holds and a further
iteration is performed, so the run relation stays defined at every `n`. -/
theorem c8_loop_runs_forever (n : Nat) :
    runFor n = some n ∧ runFor (n + 1) = some (n + 1) ∧
    loopStep n = some (n + 1) ∧ runFor n ≠ none := by
  refine ⟨runFor_eq n, runFor_eq (n + 1), rfl, ?_⟩
  rw [runFor_eq n]
  simp

/-- **C9 (counterexample).** The claim "consecutive polls are spaced at the
10-second interval measured start-to-start, independent of request latency"
fails on the code: the sleep starts only after `get_balance` returns, so
with a 3-second request latency (well within the 10-second timeout bound)
the second poll starts 13 seconds after the first, not 10. -/
theorem c9_counterexample :
    pollStart (fun _ => 3) 0 = 0 ∧
    pollStart (fun _ => 3) 1 = 13 ∧
    (3 : Nat) ≤ 10 ∧
    pollStart (fun _ => 3) 1 - pollStart (fun _ => 3) 0 ≠ 10 :=
  ⟨rfl, rfl, by decide, by decide⟩

/-- **C9 (amended).** Consecutive poll starts are spaced at the poll's own
duration plus the fixed 10-second sleep: the 10-second interval is measured
from the *end* of one poll to the start of the next, and the start-to-start
spacing equals 10 seconds exactly when the poll takes no time. -/
theorem c9_amended_spacing (d : Nat → Nat) (n : Nat) :
    pollStart d (n + 1) - pollStart d n = d n + 10 ∧
    pollStart d (n + 1) - pollEnd d n = 10 ∧
    (pollStart d (n + 1) - pollStart d n = 10 ↔ d n = 0) := by
  simp only [pollStart, pollEnd]
  omega

end Bot

namespace Bot

/-! ## Line-shape helpers for C4 -/

lemma containsHMS_cons (c : Char) (l : List Char) (h : containsHMS l = true) :
    containsHMS (c :: l) = true := by
  rw [containsHMS, h]
  simp

lemma containsHMS_append (l r : List Char) (h : containsHMS r = true) :
    containsHMS (l ++ r) = true := by
  induction l with
  | nil => simpa using h
  | cons c cs ih =>
    rw [List.cons_append]
    exact containsHMS_cons c (cs ++ r) ih

lemma containsHMS_of_isHMSAt : ∀ l : List Char, isHMSAt l = true → containsHMS l = true
  | [], h => absurd h (by decide)
  | c :: rest, h => by
    rw [containsHMS, h]
    simp

lemma digitChar_isDigitCh {n : Nat} (h : n < 10) : isDigitCh (Nat.digitChar n) = true := by
  have hall : ∀ m, m < 10 → isDigitCh (Nat.digitChar m) = true := by decide
  exact hall n h

lemma hms_data (t : Nat) : (hmsString t).data =
    [Nat.digitChar (t / 3600 % 24 / 10), Nat.digitChar (t / 3600 % 24 % 10), ':',
     Nat.digitChar (t / 60 % 60 / 10), Nat.digitChar (t / 60 % 60 % 10), ':',
     Nat.digitChar (t % 60 / 10), Nat.digitChar (t % 60 % 10)] := rfl

lemma isHMSAt_hms (t : Nat) (rest : List Char) :
    isHMSAt ((hmsString t).data ++ rest) = true := by
  have h1 : t / 3600 % 24 / 10 < 10 := by omega
  have h2 : t / 3600 % 24 % 10 < 10 := by omega
  have h3 : t / 60 % 60 / 10 < 10 := by omega
  have h4 : t / 60 % 60 % 10 < 10 := by omega
  have h5 : t % 60 / 10 < 10 := by omega
  have h6 : t % 60 % 10 < 10 := by omega
  rw [hms_data]
  simp only [List.cons_append, List.nil_append]
  simp [isHMSAt, digitChar_isDigitCh h1, digitChar_isDigitCh h2, digitChar_isDigitCh h3,
    digitChar_isDigitCh h4, digitChar_isDigitCh h5, digitChar_isDigitCh h6]

lemma containsHMS_successLine (t : Nat) (wei : Int) :
    containsHMS (successLine t wei).data = true := by
  have hd : (successLine t wei).data
      = '✅' :: ' ' :: '[' :: ((hmsString t).data
          ++ ("] Saldo: ".data ++ ((fmtBalance5 wei).data ++ " ETH/MATIC".data))) := by
    simp [successLine, String.data_append]
  rw [hd]
  apply containsHMS_cons
  apply containsHMS_cons
  apply containsHMS_cons
  exact containsHMS_of_isHMSAt _ (isHMSAt_hms t _)

lemma pad5_all_digits (m : Nat) : (pad5 m).data.all isDigitCh = true := by
  have h1 : m / 10000 % 10 < 10 := Nat.mod_lt _ (by norm_num)
  have h2 : m / 1000 % 10 < 10 := Nat.mod_lt _ (by norm_num)
  have h3 : m / 100 % 10 < 10 := Nat.mod_lt _ (by norm_num)
  have h4 : m / 10 % 10 < 10 := Nat.mod_lt _ (by norm_num)
  have h5 : m % 10 < 10 := Nat.mod_lt _ (by norm_num)
  simp [pad5, digitChar_isDigitCh h1, digitChar_isDigitCh h2, digitChar_isDigitCh h3,
    digitChar_isDigitCh h4, digitChar_isDigitCh h5]

lemma successLine_head (t : Nat) (wei : Int) :
    (successLine t wei).data.head? = some '✅' := by
  have hd : (successLine t wei).data
      = '✅' :: ' ' :: '[' :: ((hmsString t).data
          ++ ("] Saldo: ".data ++ ((fmtBalance5 wei).data ++ " ETH/MATIC".data))) := by
    simp [successLine, String.data_append]
  rw [hd]
  rfl

lemma failLine_head (e : String) : (failLine e).data.head? = some '📡' := by
  have hd : (failLine e).data
      = '📡' :: ' ' :: 'K' :: 'o' :: 'n' :: 'e' :: 'k' :: 's' :: 'i' :: ' '
          :: 'G' :: 'a' :: 'g' :: 'a' :: 'l' :: ':' :: ' ' :: e.data := by
    simp [failLine, String.data_append]
  rw [hd]
  rfl

lemma get_balance_shape (t : Nat) (resp : HttpResult) :
    (∃ wei, get_balance t resp = (.success (hmsString t) wei, [successLine t wei])) ∨
    get_balance t resp = (.emptyResponse, [emptyLine]) ∨
    (∃ e, get_balance t resp = (.connectionFailed e, [failLine e])) := by
  cases resp with
  | transportError m => exact .inr (.inr ⟨m, rfl⟩)
  | jsonError m => exact .inr (.inr ⟨m, rfl⟩)
  | ok r =>
    by_cases hT : resultTruthy r = true
    · cases hpi : pyInt16 r with
      | ok wei =>
        by_cases hov : wei.natAbs < floatDivOverflowBound
        · exact .inl ⟨wei, by simp [get_balance, getBalanceBody, hT, hpi, hov]⟩
        · exact .inr (.inr ⟨overflowMsg, by simp [get_balance, getBalanceBody, hT, hpi, hov]⟩)
      | error e => exact .inr (.inr ⟨e, by simp [get_balance, getBalanceBody, hT, hpi]⟩)
    · have hF : resultTruthy r = false := by
        revert hT
        cases resultTruthy r <;> simp
      exact .inr (.inl (by simp [get_balance, getBalanceBody, hF]))

end Bot

namespace Bot

/-- **C4 (counterexample).** The claim "every output line contains a status
marker, an `HH:MM:SS` timestamp, and either a 5-decimal amount or an error
description" fails on the code: on a successful HTTP response with
`result: null`, the single printed line is the fixed empty-data message,
which contains no `HH:MM:SS`-shaped timestamp at all. -/
theorem c4_counterexample :
    (get_balance 0 (.ok (some .jnull))).2 = [emptyLine] ∧
    containsHMS emptyLine.data = false :=
  ⟨rfl, by decide⟩

/-- **C4 (amended).** Every call to `get_balance`, in every outcome, writes
exactly one line, and that line begins with a status marker (`✅`, `❌` or
`📡`); only the success line carries an `HH:MM:SS` timestamp together with
the amount formatted with exactly five fractional digits, the
connection-failure line carries the error description after its marker, and
the empty-response line is the fixed marker-plus-message text. -/
theorem c4_amended_output_lines (t : Nat) (resp : HttpResult) :
    (get_balance t resp).2.length = 1 ∧
    (∀ r ∈ (get_balance t resp).2,
      r.data.head? = some '✅' ∨ r.data.head? = some '❌' ∨ r.data.head? = some '📡') ∧
    (∀ ts wei, (get_balance t resp).1 = .success ts wei →
      (get_balance t resp).2 = [successLine t wei] ∧
      containsHMS (successLine t wei).data = true ∧
      fmtBalance5 wei
        = (if wei < 0 then "-" else "") ++ natToStr (round5 wei.natAbs / 100000)
          ++ "." ++ pad5 (round5 wei.natAbs % 100000) ∧
      (pad5 (round5 wei.natAbs % 100000)).length = 5 ∧
      (pad5 (round5 wei.natAbs % 100000)).data.all isDigitCh = true) ∧
    (∀ e, (get_balance t resp).1 = .connectionFailed e →
      (get_balance t resp).2 = [failLine e]) ∧
    ((get_balance t resp).1 = .emptyResponse → (get_balance t resp).2 = [emptyLine]) := by
  rcases get_balance_shape t resp with ⟨wei, hgb⟩ | hgb | ⟨e, hgb⟩ <;> rw [hgb]
  · refine ⟨rfl, ?_, ?_, ?_, ?_⟩
    · intro r hr
      rcases List.mem_singleton.mp hr with rfl
      exact .inl (successLine_head t wei)
    · intro ts wei' h'
      injection h' with hts hwei
      rw [← hwei]
      exact ⟨rfl, containsHMS_successLine t wei, rfl, rfl, pad5_all_digits _⟩
    · intro e' h'
      simp at h'
    · intro h'
      simp at h'
  · refine ⟨rfl, ?_, ?_, ?_, fun _ => rfl⟩
    · intro r hr
      rcases List.mem_singleton.mp hr with rfl
      exact .inr (.inl rfl)
    · intro ts wei' h'
      simp at h'
    · intro e' h'
      simp at h'
  · refine ⟨rfl, ?_, ?_, ?_, ?_⟩
    · intro r hr
      rcases List.mem_singleton.mp hr with rfl
      exact .inr (.inr (failLine_head e))
    · intro ts wei' h'
      simp at h'
    · intro e' h'
      injection h' with he
      rw [← he]
    · intro h'
      simp at h'

end Bot
